import Mathlib

/-!
Verification of the ecs-down repository (package downscaler plus its main shell).

The development shallowly embeds the two core components:

* the Drainable Instance Selector (src/downscaler/ecs.go:
  drainAtTaskCount, findDrainableContainerInstances,
  sortECSContainersByInstanceAge, paginateStringArray), modelled as pure
  functions over an environment `SelEnv` that supplies the responses of the
  ECS/EC2 control-plane read calls; and

* the Batch Scale-Down Orchestrator (src/unnamed/part_000: updateASG,
  terminateContainerInstances, describeASG; src/unnamed/part_001: Run,
  ScaleDown), modelled in a small state monad `OrchM` that consumes a
  scripted stream of control-plane responses and records every control-plane
  call it makes as an event, so that trace properties (which calls were made,
  with which arguments, in which order) can be stated and proved.

Machine integers (Go int/int64) are modelled as `Int`; AWS launch times as
`Int`; fallible Go functions returning `(T, error)` are modelled as
`Except GoError T`.  Side effects that are pure logging (fmt.Printf,
log.Printf) have no observable effect on any return value and are not
modelled; each such omission is noted at the definition it concerns.
-/

/-- Error values produced by the downscaler.  Each constructor corresponds to
one `fmt.Errorf`/`errors.Wrap` site in the source; `cpErr` stands for an
error surfaced verbatim from an AWS SDK call, `streamEnded` and `badOracle`
are artifacts of the scripted-response model (a real run never observes
them unless the oracle is malformed), and `fuelOut` models the
non-termination of the Go batch loop when BatchSize is zero. -/
inductive GoError where
  | cpErr (msg : String)
  | wrappedErr (wrap msg : String)
  | expectedOneCluster (n : Nat)
  | nilActiveServices
  | expectedOneService (n : Nat)
  | arnAgeEmpty (arn : String)
  | insufficient (desired : Int) (running : Nat)
  | noRoom
  | mismatchNotAllowed (svcDesired asgDesired : Int)
  | asgNotFound
  | badOracle
  | streamEnded
  | fuelOut
deriving DecidableEq, Repr

/-- The `Config` struct of src/unnamed/part_001 (only the fields the core
reads; `Region` is consumed by session setup only and is omitted).
`BatchSize` is a Go `int` that the CLI defaults to 1 and never validates; we
model it as `Nat` (the loop in `Run` only compares it against list lengths
and adds it to a start index). -/
structure Config where
  Service : String
  Cluster : String
  ASG : String
  DesiredCount : Int
  BatchSize : Nat
  InstanceType : String
  InstanceFlip : Bool
  SortByAge : Bool
  TaskCountDetect : Bool
  AllowASGMismatch : Bool
  AgentVersionThreshold : String

/-- Environment supplying the responses of the control-plane read calls made
by the selector (src/downscaler/ecs.go).  Each field models one AWS call:

* `describeClusters` — `DescribeClustersWithContext` on the configured
  cluster: an SDK error, or the list of returned clusters, each carrying its
  (nullable) `ActiveServicesCount`;
* `listInstances` — `ListContainerInstancesPagesWithContext` for a given
  filter (`none` models the absent filter of the catch-all tier): an SDK
  error or the pages of container-instance ARNs (the page callback in the
  source processes every page, so only the concatenation matters, but pages
  are kept to model pagination faithfully);
* `describeContainerInstances` — `DescribeContainerInstancesWithContext` on
  a chunk of at most 100 ARNs: pairs (ContainerInstanceArn, Ec2InstanceId);
* `describeInstancesPages` — `DescribeInstancesPagesWithContext` on a chunk
  of at most 200 EC2 ids: pages of (InstanceId, nullable LaunchTime),
  flattening the Reservations/Instances nesting of the real response. -/
structure SelEnv where
  describeClusters : Except String (List (Option Int))
  listInstances : Option String → Except String (List (List String))
  describeContainerInstances : List String → Except String (List (String × String))
  describeInstancesPages : List String → Except String (List (List (String × Option Int)))

/-- Fuel-driven worker for `paginateStringArray`. -/
def paginateGo (n : Nat) : Nat → List String → List (List String)
  | _, [] => []
  | 0, _ => []
  | fuel + 1, items => items.take n :: paginateGo n fuel (items.drop n)

/-- `paginateStringArray` from src/downscaler/ecs.go:257-268: chunks `items`
into consecutive slices of length `n` (last slice may be shorter), via
`paginateGo` with `items.length` fuel — for `n ≥ 1` each step drops at least
one element, so the fuel is never exhausted.  The source loop
`for i := 0; i < len(items); i += n` does not terminate for `n = 0` on a
nonempty list; the source only ever calls it with 100 and 200, and we return
`[]` in that unreachable case to stay total. -/
def paginateStringArray (items : List String) (n : Nat) : List (List String) :=
  if n = 0 then [] else paginateGo n items.length items

/-- The body of the page callback of `findInstances`
(src/downscaler/ecs.go:95-105): walk the ARNs of all pages in order, and
append each ARN not yet in the seen-set to the accumulator while marking it
seen.  `seen` models the Go `map[string]bool` as the list of keys mapped to
true.  The `skipped` counter of the source only feeds an `fmt.Printf` and is
not modelled. -/
def dedupAppend (seen acc : List String) : List String → List String × List String
  | [] => (seen, acc)
  | a :: rest =>
      if a ∈ seen then dedupAppend seen acc rest
      else dedupAppend (a :: seen) (acc ++ [a]) rest

/-- `drainAtTaskCount` from src/downscaler/ecs.go:24-42.  NOTE: the source
reads `if err != nil { return -1, nil }` at line 28-30 — the error from
`DescribeClustersWithContext` is dropped and the function reports success
with count -1.  The embedding reproduces that faithfully. -/
def drainAtTaskCount (env : SelEnv) : Except GoError Int :=
  match env.describeClusters with
  | .error _ => .ok (-1)
  | .ok clusters =>
      match clusters with
      | [some count] => .ok (count - 1)
      | [none] => .error .nilActiveServices
      | cs => .error (.expectedOneCluster cs.length)

/-- The filter string of the stale-agent tier (src/downscaler/ecs.go:132). -/
def agentFilter (cfg : Config) : String :=
  "agentVersion < " ++ cfg.AgentVersionThreshold

/-- The filter string of the machine-type tier (src/downscaler/ecs.go:142). -/
def typeFilter (cfg : Config) : String :=
  "attribute:ecs.instance-type == " ++ cfg.InstanceType

/-- The filter string of the low-task-count tier
(src/downscaler/ecs.go:156). -/
def tcFilter (rc : Int) : String :=
  "runningTasksCount <= " ++ toString rc

/-- Pointwise update of a Go `map[string]string` whose missing-key value is
the zero value `""`. -/
def updStr (f : String → String) (k v : String) : String → String :=
  fun x => if x = k then v else f x

/-- Pointwise update of the Go `map[string]*time.Time`
`containerArnToInstanceAge`; a missing key and a stored nil pointer are both
`none`. -/
def updAge (f : String → Option Int) (k : String) (v : Option Int) :
    String → Option Int :=
  fun x => if x = k then v else f x

/-- First loop of `sortECSContainersByInstanceAge`
(src/downscaler/ecs.go:197-213): describe the container instances in chunks
of 100, accumulating the map `ec2IDToContainerArn` and the list `ec2IDs` in
response order.  (The source also fills `containerArnToEc2ID`, which it
never reads afterwards; that dead map is not modelled.)  Each response is a
list of (ContainerInstanceArn, Ec2InstanceId) pairs; a failing call is
wrapped as in the source (`errors.Wrap(err, "cannot describe container
instances")`). -/
def describeCIChunks (env : SelEnv) :
    List (List String) → (String → String) × List String →
    Except GoError ((String → String) × List String)
  | [], acc => .ok acc
  | chunk :: rest, acc =>
      match env.describeContainerInstances chunk with
      | .error e => .error (.wrappedErr "cannot describe container instances" e)
      | .ok pairs =>
          describeCIChunks env rest
            (pairs.foldl (fun a p => (updStr a.1 p.2 p.1, a.2 ++ [p.2])) acc)

/-- Second loop of `sortECSContainersByInstanceAge`
(src/downscaler/ecs.go:215-234): describe the EC2 instances in chunks of
200; the page callback records, for every returned instance, its launch time
under the container ARN obtained from `ec2IDToContainerArn` (an unknown id
maps to the Go zero value `""`).  A failing call is wrapped as in the source
(`errors.Wrap(err, "cannot describe instances")`). -/
def describeEC2Chunks (env : SelEnv) (i2a : String → String) :
    List (List String) → (String → Option Int) →
    Except GoError (String → Option Int)
  | [], ages => .ok ages
  | chunk :: rest, ages =>
      match env.describeInstancesPages chunk with
      | .error e => .error (.wrappedErr "cannot describe instances" e)
      | .ok pages =>
          describeEC2Chunks env i2a rest
            (pages.flatten.foldl (fun a p => updAge a (i2a p.1) p.2) ages)

/-- The map-building prefix of `sortECSContainersByInstanceAge`
(src/downscaler/ecs.go:192-234): the resulting `containerArnToInstanceAge`
lookup. -/
def buildAges (env : SelEnv) (arns : List String) :
    Except GoError (String → Option Int) :=
  match describeCIChunks env (paginateStringArray arns 100) (fun _ => "", []) with
  | .error e => .error e
  | .ok (i2a, ids) =>
      describeEC2Chunks env i2a (paginateStringArray ids 200) (fun _ => none)

/-- `sortECSContainersByInstanceAge` from src/downscaler/ecs.go:191-255.
After building the age map, the source runs `sort.Slice` with the comparator
`less i j := age[work[j]].After(age[work[i]])` (ascending launch time,
oldest first); if the comparator meets a nil launch time it records
`fmt.Errorf("container ARN age empty for %s", ...)` in `err`, which the
function returns alongside the slice and the caller treats as fatal.  The
embedding models `sort.Slice` as follows: for at most one element no
comparison is performed, so the input is returned unchanged; for two or more
elements every element takes part in at least one comparison, so a single
unresolvable launch time yields the error, and otherwise the result is the
input sorted (as a permutation) by ascending launch time — `sort.Slice` is
unstable, so any such permutation is a faithful model; we use insertion
sort. -/
def sortECSContainersByInstanceAge (env : SelEnv) (arns : List String) :
    Except GoError (List String) :=
  match buildAges env arns with
  | .error e => .error e
  | .ok ages =>
      if arns.length ≤ 1 then .ok arns
      else if arns.all (fun a => (ages a).isSome) then
        .ok (List.insertionSort (fun a b => (ages a).getD 0 ≤ (ages b).getD 0) arns)
      else .error (.arnAgeEmpty ((arns.find? (fun a => (ages a).isNone)).getD ""))

/-- The running state of `findDrainableContainerInstances`
(src/downscaler/ecs.go:86-87): the accumulated candidate list `allArns` and
the shared seen-set (a `map[string]bool`, modelled by its true-keys). -/
structure SelState where
  allArns : List String
  seen : List String
deriving DecidableEq, Repr

/-- The `findInstances` closure of `findDrainableContainerInstances`
(src/downscaler/ecs.go:93-128): list the container instances matching
`filter` (all pages), keep the ones not yet seen while marking them seen,
optionally sort the tier's fresh contribution by instance age when
`SortByAge` is set and the contribution has more than one element, and
append it to `allArns`.  The `fmt.Printf` progress line is not modelled. -/
def findInstances (env : SelEnv) (cfg : Config) (filter : Option String)
    (st : SelState) : Except GoError SelState :=
  match env.listInstances filter with
  | .error e => .error (.cpErr e)
  | .ok pages =>
      let sd := dedupAppend st.seen [] pages.flatten
      if cfg.SortByAge ∧ 1 < sd.2.length then
        match sortECSContainersByInstanceAge env sd.2 with
        | .error e => .error e
        | .ok sorted => .ok ⟨st.allArns ++ sorted, sd.1⟩
      else .ok ⟨st.allArns ++ sd.2, sd.1⟩

/-- The first three tier evaluations of `findDrainableContainerInstances`
(src/downscaler/ecs.go:130-160): the stale-agent tier (run iff
`AgentVersionThreshold` is set), the machine-type tier (run iff
`InstanceType` is set), and the low-task-count tier (run iff
`TaskCountDetect`, with threshold obtained from `drainAtTaskCount`). -/
def selectorStates3 (env : SelEnv) (cfg : Config) : Except GoError SelState :=
  let st0 : SelState := ⟨[], []⟩
  match (if cfg.AgentVersionThreshold ≠ "" then
           findInstances env cfg (some (agentFilter cfg)) st0
         else .ok st0) with
  | .error e => .error e
  | .ok st1 =>
      match (if cfg.InstanceType ≠ "" then
               findInstances env cfg (some (typeFilter cfg)) st1
             else .ok st1) with
      | .error e => .error e
      | .ok st2 =>
          if cfg.TaskCountDetect then
            match drainAtTaskCount env with
            | .error e => .error e
            | .ok rc => findInstances env cfg (some (tcFilter rc)) st2
          else .ok st2

/-- All four tier evaluations of `findDrainableContainerInstances`
(src/downscaler/ecs.go:130-165): the three configured tiers followed by the
catch-all tier (no filter, always run). -/
def selectorStates (env : SelEnv) (cfg : Config) : Except GoError SelState :=
  match selectorStates3 env cfg with
  | .error e => .error e
  | .ok st3 => findInstances env cfg none st3

/-- `findDrainableContainerInstances` from src/downscaler/ecs.go:85-174:
evaluate the tiers, then truncate the merged candidate list to its first
`len(allArns) - DesiredCount` entries, failing when that quantity is not
strictly positive. -/
def findDrainableContainerInstances (env : SelEnv) (cfg : Config) :
    Except GoError (List String) :=
  match selectorStates env cfg with
  | .error e => .error e
  | .ok st4 =>
      let drainCount : Int := (st4.allArns.length : Int) - cfg.DesiredCount
      if drainCount ≤ 0 then
        .error (.insufficient cfg.DesiredCount st4.allArns.length)
      else .ok (st4.allArns.take drainCount.toNat)

/-! ### The Batch Scale-Down Orchestrator (src/unnamed/part_000, part_001)

The orchestrator's control-plane calls are interpreted against a scripted
stream of responses (one response consumed per call, in call order) while
every call is recorded as an event, so both return values and call traces
are available to theorems. -/

/-- One scripted control-plane response.  `svcList` answers
`DescribeServicesWithContext` (the desired counts of the returned services);
`svc` answers `UpdateServiceWithContext` (the desired count of the returned
service); `asgGroups` answers `DescribeAutoScalingGroupsWithContext` (each
group's nullable DesiredCapacity); `drained` answers
`UpdateContainerInstancesStateWithContext` (the Ec2InstanceIds of the
returned container instances); `done` answers the calls whose result body is
ignored (waiters, UpdateAutoScalingGroup, TerminateInstance...); `fail`
makes the call return the given SDK error. -/
inductive CPResp where
  | svcList (ds : List Int)
  | svc (d : Int)
  | asgGroups (ds : List (Option Int))
  | drained (ids : List String)
  | done
  | fail (e : String)
deriving DecidableEq, Repr

/-- One recorded control-plane call of the orchestrator, with the arguments
that the claims speak about.  `updateASG` records the MinSize, the
DesiredCapacity and the optional MaxSize sent in
`UpdateAutoScalingGroupWithContext`. -/
inductive CPEvent where
  | describeService
  | updateService (desired : Int)
  | waitServicesStable
  | describeASG
  | updateASG (minSize desired : Int) (maxSize : Option Int)
  | waitGroupInService
  | drain (arns : List String)
  | terminate (instanceId : String)
  | waitTerminated (ids : List String)
deriving DecidableEq, Repr

/-- Interpreter state: the not-yet-consumed scripted responses and the
events recorded so far. -/
structure OS where
  resps : List CPResp
  events : List CPEvent
deriving DecidableEq, Repr

/-- The orchestrator monad: state-passing over `OS` with `Except`-style
short-circuit on error. -/
def OrchM (α : Type) : Type := OS → Except GoError α × OS

instance : Monad OrchM where
  pure a := fun s => (.ok a, s)
  bind x f := fun s =>
    match x s with
    | (.ok a, s') => f a s'
    | (.error e, s') => (.error e, s')

/-- Raise an error without consuming responses or recording events (a Go
`return nil, fmt.Errorf(...)` with no preceding call). -/
def orchThrow {α : Type} (e : GoError) : OrchM α := fun s => (.error e, s)

/-- Lift an already-computed `Except` value (used for the selector, whose
calls are the ECS/EC2 reads modelled by `SelEnv` and are not part of the
orchestration trace). -/
def liftSel {α : Type} (x : Except GoError α) : OrchM α := fun s => (x, s)

/-- Make one control-plane call: record the event, consume the next scripted
response, surface a scripted failure verbatim, and otherwise parse the
response body.  An exhausted script yields the modelling-artifact error
`streamEnded`. -/
def callCP {α : Type} (ev : CPEvent) (parse : CPResp → Except GoError α) :
    OrchM α := fun s =>
  match s.resps with
  | [] => (.error .streamEnded, ⟨[], s.events ++ [ev]⟩)
  | r :: rest =>
      (match r with
       | .fail e => .error (.cpErr e)
       | r' => parse r', ⟨rest, s.events ++ [ev]⟩)

/-- `ecsService` from src/downscaler/ecs.go:44-58: describe the configured
service and require exactly one result; only its `DesiredCount` (the one
field the orchestrator reads) is retained. -/
def ecsService (_cfg : Config) : OrchM Int :=
  callCP .describeService (fun r =>
    match r with
    | .svcList [d] => .ok d
    | .svcList ds => .error (.expectedOneService ds.length)
    | _ => .error .badOracle)

/-- `updateECSService` from src/downscaler/ecs.go:60-81: update the
service's desired count (ForceNewDeployment=false), then block on
`WaitUntilServicesStable`; returns the updated service (its desired
count). -/
def updateECSService (_cfg : Config) (desiredCount : Int) : OrchM Int := do
  let sv ← callCP (.updateService desiredCount) (fun r =>
    match r with
    | .svc d => .ok d
    | _ => .error .badOracle)
  let _ ← callCP .waitServicesStable (fun _ => .ok ())
  pure sv

/-- `drainContainerInstances` from src/downscaler/ecs.go:176-189: set the
given container instances to DRAINING and return the control-plane-confirmed
drained instances (their Ec2InstanceIds, the one field the orchestrator
reads from them). -/
def drainContainerInstances (_cfg : Config) (arns : List String) :
    OrchM (List String) :=
  callCP (.drain arns) (fun r =>
    match r with
    | .drained ids => .ok ids
    | _ => .error .badOracle)

/-- `updateASG` from src/unnamed/part_000:12-30: send
`UpdateAutoScalingGroup` with MinSize = DesiredCapacity = `minSize` and,
when `shouldSetMaxSize`, also MaxSize = `minSize`; then block on
`WaitUntilGroupInService`. -/
def updateASG (_cfg : Config) (minSize : Int) (shouldSetMaxSize : Bool) :
    OrchM Unit := do
  let _ ← callCP
      (.updateASG minSize minSize (if shouldSetMaxSize then some minSize else none))
      (fun _ => .ok ())
  callCP .waitGroupInService (fun _ => .ok ())

/-- The termination loop of `terminateContainerInstances`
(src/unnamed/part_000:36-47): terminate each drained instance in order with
ShouldDecrementDesiredCapacity=false, aborting on the first failure. -/
def terminateEach (_cfg : Config) : List String → OrchM Unit
  | [] => pure ()
  | iid :: rest => do
      let _ ← callCP (.terminate iid) (fun _ => .ok ())
      terminateEach _cfg rest

/-- `terminateContainerInstances` from src/unnamed/part_000:32-57: terminate
every drained instance, then block on `WaitUntilInstanceTerminated` for all
of their ids. -/
def terminateContainerInstances (cfg : Config) (ids : List String) :
    OrchM Unit := do
  let _ ← terminateEach cfg ids
  callCP (.waitTerminated ids) (fun _ => .ok ())

/-- `describeASG` from src/unnamed/part_000:59-70: describe the configured
auto-scaling group and return the first returned group's (nullable)
DesiredCapacity, or the "Could not find ASG?" error when none is
returned. -/
def describeASG (_cfg : Config) : OrchM (Option Int) :=
  callCP .describeASG (fun r =>
    match r with
    | .asgGroups (g :: _) => .ok g
    | .asgGroups [] => .error .asgNotFound
    | _ => .error .badOracle)

/-- The tail of `ScaleDown` (src/unnamed/part_001:124-159), after the
desired counts have been computed: drain the batch; if the new scheduler
desired count is strictly positive, update the service and (unless flip
mode) lower the ASG to `instanceDesired` without touching MaxSize; finally
terminate the drained instances.  The log lines are not modelled. -/
def scaleTail (cfg : Config) (service : Int) (cis : List String)
    (instanceDesired desiredCount : Int) : OrchM Int := do
  let drained ← drainContainerInstances cfg cis
  let service' ←
    (if desiredCount > 0 then do
        let s' ← updateECSService cfg desiredCount
        if cfg.InstanceFlip = false then do
          let _ ← updateASG cfg instanceDesired false
          pure s'
        else pure s'
      else pure service)
  let _ ← terminateContainerInstances cfg drained
  pure service'

/-- `ScaleDown` from src/unnamed/part_001:100-160: compute the scheduler's
new desired count (previous desired minus batch size); unless flip mode,
read the live ASG desired capacity (`aws.Int64Value` maps a nil
DesiredCapacity to 0) and, when the new scheduler count exceeds it, clamp
the instance target to `asgDesired - len(batch)` — aborting with the
mismatch error unless `AllowASGMismatch` (with the flag, the source logs a
warning, which is not modelled, and proceeds); then run the drain / scale /
terminate tail. -/
def ScaleDown (cfg : Config) (service : Int) (cis : List String) :
    OrchM Int := do
  let desiredCount := service - (cis.length : Int)
  let instanceDesired ←
    (if cfg.InstanceFlip = false then do
        let dOpt ← describeASG cfg
        let asgDesired := dOpt.getD 0
        if desiredCount > asgDesired then
          if cfg.AllowASGMismatch = false then
            orchThrow (.mismatchNotAllowed service asgDesired)
          else pure (asgDesired - (cis.length : Int))
        else pure desiredCount
      else pure desiredCount)
  scaleTail cfg service cis instanceDesired desiredCount

/-- The batch loop of `Run` (src/unnamed/part_001:74-83):
`for start := 0; start < len(cis) && start < int(maxToRemove); start += BatchSize`,
processing the slice `cis[start:end]` with `end = min(start+BatchSize, len)`
in each iteration and threading the updated service through.  The loop is
given `len(cis) + 1` fuel by `Run`; for `BatchSize ≥ 1` the loop performs at
most `len(cis)` iterations, so the `fuelOut` branch is unreachable and only
models the divergence of the Go loop when BatchSize = 0. -/
def runBatches (cfg : Config) (maxToRemove : Int) :
    Nat → Int → List String → Nat → OrchM Int
  | 0, _, _, _ => orchThrow .fuelOut
  | fuel + 1, svc, cis, start =>
      if start < cis.length ∧ (start : Int) < maxToRemove then do
        let svc' ← ScaleDown cfg svc ((cis.drop start).take cfg.BatchSize)
        runBatches cfg maxToRemove fuel svc' cis (start + cfg.BatchSize)
      else pure svc

/-- The prefix of `Run` (src/unnamed/part_001:53-83): select the drainable
container instances, read the service's current desired count, guard
`maxToRemove == 0` with the "no room to decrease" error, and run the batch
loop.  Returns `originalTaskCount` for the finalize step.  The `fmt.Printf`
and separator lines are not modelled. -/
def RunPrep (selEnv : SelEnv) (cfg : Config) : OrchM Int := do
  let cis ← liftSel (findDrainableContainerInstances selEnv cfg)
  let svc ← ecsService cfg
  let maxToRemove := svc - cfg.DesiredCount
  if maxToRemove = 0 then orchThrow .noRoom
  else do
    let _ ← runBatches cfg maxToRemove (cis.length + 1) svc cis 0
    pure svc

/-- `Run` from src/unnamed/part_001:53-98.  Finalize
(src/unnamed/part_001:85-97): in flip mode, restore the scheduler's desired
count to the original pre-run value and return that call's error — the
source tests the error backwards (`if err != nil { log.Println("Success!") }`)
but only around the log line; the returned value is `err` itself, so a
failed restoration is propagated.  Outside flip mode, set the ASG's MinSize,
MaxSize and DesiredCapacity all to the configured target. -/
def Run (selEnv : SelEnv) (cfg : Config) : OrchM Unit := do
  let orig ← RunPrep selEnv cfg
  if cfg.InstanceFlip then do
    let _ ← updateECSService cfg orig
    pure ()
  else updateASG cfg cfg.DesiredCount true

/-! ### Predicates used by the theorems -/

/-- What one executed tier contributes: `stPost` extends `stPre.allArns` by
the block `t`, whose elements all come from the tier's (successful) listing
and were unseen before; the block is duplicate-free; the seen-set grows by
exactly the block; and, when age-sorting applies, the block is a sorted
permutation of the tier's deduplicated listing with every launch time
resolved. -/
def TierBlock (env : SelEnv) (cfg : Config) (filter : Option String)
    (stPre stPost : SelState) (t : List String) : Prop :=
  stPost.allArns = stPre.allArns ++ t ∧
  (∃ pages, env.listInstances filter = .ok pages ∧ ∀ a ∈ t, a ∈ pages.flatten) ∧
  (∀ a ∈ t, a ∉ stPre.seen) ∧
  t.Nodup ∧
  (∀ x, x ∈ stPost.seen ↔ x ∈ stPre.seen ∨ x ∈ t) ∧
  (cfg.SortByAge = true → 1 < t.length →
     ∃ pre ages, pre.Perm t ∧ buildAges env pre = .ok ages ∧
       (∀ a ∈ t, (ages a).isSome) ∧
       List.Sorted (fun a b => (ages a).getD 0 ≤ (ages b).getD 0) t)

/-- Invariant threaded through the tiers: the candidate list has no
duplicates and all of its members are in the seen-set. -/
def SelInv (st : SelState) : Prop :=
  st.allArns.Nodup ∧ ∀ a ∈ st.allArns, a ∈ st.seen


/-- The block `b` is backed by a successful listing for `filter`: every
element of `b` occurs in some page of that listing. -/
def fromListing (env : SelEnv) (filter : Option String) (b : List String) : Prop :=
  ∃ pages, env.listInstances filter = .ok pages ∧ ∀ a ∈ b, a ∈ pages.flatten

/-- `x` can only add events satisfying `P` to the trace. -/
def EmitsOnly {α : Type} (x : OrchM α) (P : CPEvent → Prop) : Prop :=
  ∀ s ev, ev ∈ (x s).2.events → ev ∈ s.events ∨ P ev

/-- `x` never returns the orchestrator's "no room to decrease" error (that
error has a single production site, the guard in `RunPrep`). -/
def NoNoRoom {α : Type} (x : OrchM α) : Prop :=
  ∀ s, (x s).1 ≠ .error .noRoom

/-- The event an `updateASG` call records: a capacity update of the
instance group. -/
def isCapacityUpdate : CPEvent → Prop
  | .updateASG _ _ _ => True
  | _ => False

/-! ### Concrete environments and configurations used by the witnesses -/

/-- Base configuration: every optional tier disabled, non-flip, batch 1,
target 1. -/
def cfgA : Config where
  Service := "s"
  Cluster := "c"
  ASG := "g"
  DesiredCount := 1
  BatchSize := 1
  InstanceType := ""
  InstanceFlip := false
  SortByAge := false
  TaskCountDetect := false
  AllowASGMismatch := false
  AgentVersionThreshold := ""

/-- Selector environment with a paginated catch-all listing whose pages
overlap (the ARN "b" occurs on both pages). -/
def envA : SelEnv where
  describeClusters := .ok [some 2]
  listInstances := fun f =>
    match f with
    | none => .ok [["a", "b"], ["b", "c"]]
    | some _ => .ok []
  describeContainerInstances := fun _ => .ok []
  describeInstancesPages := fun _ => .ok []

/-- Selector environment with a stale-agent tier listing that overlaps the
catch-all listing. -/
def envB : SelEnv where
  describeClusters := .ok [some 2]
  listInstances := fun f =>
    match f with
    | none => .ok [["old1", "new1", "new2"]]
    | some q => if q = "agentVersion < 1.39.0" then .ok [["old1", "old2"]] else .ok []
  describeContainerInstances := fun _ => .ok []
  describeInstancesPages := fun _ => .ok []

/-- `cfgA` with the stale-agent tier enabled. -/
def cfgB : Config := { cfgA with AgentVersionThreshold := "1.39.0" }

/-- Selector environment where every launch time resolves: instance "x" is
newest (time 3), "y" oldest (time 1), "z" in between (time 2). -/
def envC : SelEnv where
  describeClusters := .ok [some 2]
  listInstances := fun f =>
    match f with
    | none => .ok [["x", "y", "z"]]
    | some _ => .ok []
  describeContainerInstances := fun chunk => .ok (chunk.map (fun a => (a, "e" ++ a)))
  describeInstancesPages := fun ids =>
    .ok [ids.map (fun i => (i, some (if i = "ex" then 3 else if i = "ey" then 1 else 2)))]

/-- `cfgA` with age-sorting enabled. -/
def cfgC : Config := { cfgA with SortByAge := true }

/-- Selector environment in which the container instance "y" has no
resolvable launch time (the describe responses only cover "x"). -/
def envD : SelEnv where
  describeClusters := .ok [some 2]
  listInstances := fun _ => .ok []
  describeContainerInstances := fun _ => .ok [("x", "ex")]
  describeInstancesPages := fun _ => .ok [[("ex", some 5)]]

/-- The age map `buildAges` produces for `envD` on ["x", "y"]
(resolves "x" to 5 and leaves "y" unresolved). -/
def agesD : String → Option Int :=
  match buildAges envD ["x", "y"] with
  | .ok a => a
  | .error _ => fun _ => none

/-- Selector environment whose `DescribeClusters` call fails while the
listings succeed; the low-task-count filter built from the swallowed failure
(`runningTasksCount <= -1`) answers with "i-low". -/
def envC1 : SelEnv where
  describeClusters := .error "DescribeClusters failed"
  listInstances := fun f =>
    match f with
    | none => .ok [["i-low", "i-a", "i-b"]]
    | some q => if q = "runningTasksCount <= -1" then .ok [["i-low"]] else .ok []
  describeContainerInstances := fun _ => .ok []
  describeInstancesPages := fun _ => .ok []

/-- `cfgA` with the low-task-count tier enabled. -/
def cfgC1 : Config := { cfgA with TaskCountDetect := true }

/-- Selector environment for orchestrator scenarios: three container
instances, catch-all listing only. -/
def envF : SelEnv where
  describeClusters := .ok [some 2]
  listInstances := fun f =>
    match f with
    | none => .ok [["i-a", "i-b", "i-c"]]
    | some _ => .ok []
  describeContainerInstances := fun _ => .ok []
  describeInstancesPages := fun _ => .ok []

/-- `cfgA` in flip mode. -/
def cfgF : Config := { cfgA with InstanceFlip := true }

/-- Scripted responses for a flip run over `envF`/`cfgF`: service at desired
count 3, two successful single-instance batches, then a failing restoration
call. -/
def s0F : OS where
  resps := [.svcList [3],
            .drained ["e-a"], .svc 2, .done, .done, .done,
            .drained ["e-b"], .svc 1, .done, .done, .done,
            .fail "restore failed"]
  events := []

/-- The interpreter state after `RunPrep` on `s0F`: both batches processed,
only the failing restoration response left. -/
def s1F : OS where
  resps := [.fail "restore failed"]
  events := [.describeService,
             .drain ["i-a"], .updateService 2, .waitServicesStable,
             .terminate "e-a", .waitTerminated ["e-a"],
             .drain ["i-b"], .updateService 1, .waitServicesStable,
             .terminate "e-b", .waitTerminated ["e-b"]]

/-- Scripted responses for a non-flip run whose service is already below the
target (desired 0 < target 1): only the final ASG update remains. -/
def s0G : OS where
  resps := [.svcList [0], .done, .done]
  events := []

/-- Interpreter state holding one ASG description (desired capacity 3) for a
single `ScaleDown` batch. -/
def s0M : OS where
  resps := [.asgGroups [some 3]]
  events := []

/-- Unfolding lemma for `pure` on `OrchM`. -/
theorem OrchM.pure_run {α : Type} (a : α) (s : OS) :
    (pure a : OrchM α) s = (.ok a, s) := rfl

/-- Unfolding lemma for `bind` on `OrchM`. -/
theorem OrchM.bind_run {α β : Type} (x : OrchM α) (f : α → OrchM β) (s : OS) :
    (x >>= f) s =
      match x s with
      | (.ok a, s') => f a s'
      | (.error e, s') => (.error e, s') := rfl


/-! ### Lemmas about the seen-set deduplication -/

/-- `dedupAppend` only ever appends to its accumulator. -/
theorem dedupAppend_acc : ∀ (l seen acc : List String),
    dedupAppend seen acc l =
      ((dedupAppend seen [] l).1, acc ++ (dedupAppend seen [] l).2)
  | [], _, _ => by simp [dedupAppend]
  | a :: rest, seen, acc => by
      by_cases h : a ∈ seen
      · simp only [dedupAppend, if_pos h]
        exact dedupAppend_acc rest seen acc
      · simp only [dedupAppend, if_neg h, List.nil_append]
        rw [dedupAppend_acc rest (a :: seen) (acc ++ [a]),
            dedupAppend_acc rest (a :: seen) [a]]
        simp

/-- Every element the deduplication keeps comes from the input and was not
yet seen. -/
theorem dedup_mem_sub : ∀ (l seen : List String),
    ∀ a ∈ (dedupAppend seen [] l).2, a ∈ l ∧ a ∉ seen
  | [], _ => by simp [dedupAppend]
  | b :: rest, seen => by
      by_cases h : b ∈ seen
      · simp only [dedupAppend, if_pos h]
        intro a ha
        have := dedup_mem_sub rest seen a ha
        exact ⟨List.mem_cons_of_mem _ this.1, this.2⟩
      · simp only [dedupAppend, if_neg h, List.nil_append]
        rw [dedupAppend_acc rest (b :: seen) [b]]
        intro a ha
        simp only [List.singleton_append, List.mem_cons] at ha
        rcases ha with rfl | ha
        · exact ⟨List.mem_cons_self _ _, h⟩
        · have := dedup_mem_sub rest (b :: seen) a ha
          refine ⟨List.mem_cons_of_mem _ this.1, fun hs => this.2 ?_⟩
          exact List.mem_cons_of_mem _ hs

/-- The deduplicated contribution has no duplicates. -/
theorem dedup_nodup : ∀ (l seen : List String),
    (dedupAppend seen [] l).2.Nodup
  | [], _ => by simp [dedupAppend]
  | b :: rest, seen => by
      by_cases h : b ∈ seen
      · simp only [dedupAppend, if_pos h]
        exact dedup_nodup rest seen
      · simp only [dedupAppend, if_neg h, List.nil_append]
        rw [dedupAppend_acc rest (b :: seen) [b]]
        simp only [List.singleton_append, List.nodup_cons]
        refine ⟨fun hb => ?_, dedup_nodup rest (b :: seen)⟩
        exact (dedup_mem_sub rest (b :: seen) b hb).2 (List.mem_cons_self _ _)

/-- The final seen-set is the initial one plus the kept contribution. -/
theorem dedup_seen_iff : ∀ (l seen : List String) (x : String),
    x ∈ (dedupAppend seen [] l).1 ↔ x ∈ seen ∨ x ∈ (dedupAppend seen [] l).2
  | [], _, _ => by simp [dedupAppend]
  | b :: rest, seen, x => by
      by_cases h : b ∈ seen
      · simp only [dedupAppend, if_pos h]
        exact dedup_seen_iff rest seen x
      · simp only [dedupAppend, if_neg h, List.nil_append]
        rw [dedupAppend_acc rest (b :: seen) [b]]
        simp only [List.singleton_append, List.mem_cons]
        rw [dedup_seen_iff rest (b :: seen) x]
        simp only [List.mem_cons]
        tauto

/-! ### Lemmas about the age sort -/

/-- A successful age sort permutes its input. -/
theorem sortAge_perm (env : SelEnv) (arns out : List String)
    (h : sortECSContainersByInstanceAge env arns = .ok out) : out.Perm arns := by
  unfold sortECSContainersByInstanceAge at h
  split at h
  · exact absurd h (by simp)
  · split at h
    · cases h
      exact List.Perm.refl _
    · split at h
      · cases h
        exact List.perm_insertionSort _ _
      · exact absurd h (by simp)

/-- A successful age sort of at least two candidates resolved every launch
time and produced a list sorted by ascending launch time. -/
theorem sortAge_sorted (env : SelEnv) (arns out : List String)
    (h2 : 2 ≤ arns.length)
    (h : sortECSContainersByInstanceAge env arns = .ok out) :
    ∃ ages, buildAges env arns = .ok ages ∧
      (∀ a ∈ arns, (ages a).isSome) ∧
      List.Sorted (fun a b => (ages a).getD 0 ≤ (ages b).getD 0) out := by
  unfold sortECSContainersByInstanceAge at h
  split at h
  · exact absurd h (by simp)
  case _ ages heq =>
    split at h
    · omega
    · split at h
      case _ hall =>
        cases h
        refine ⟨ages, heq, ?_, ?_⟩
        · intro a hm
          exact List.all_eq_true.mp hall a hm
        · haveI : IsTotal String (fun a b => (ages a).getD 0 ≤ (ages b).getD 0) :=
            ⟨fun a b => Int.le_total _ _⟩
          haveI : IsTrans String (fun a b => (ages a).getD 0 ≤ (ages b).getD 0) :=
            ⟨fun _ _ _ hab hbc => le_trans hab hbc⟩
          exact List.sorted_insertionSort _ _
      · exact absurd h (by simp)

/-- If any launch time of a list of at least two candidates is unresolved,
the age sort is a hard error. -/
theorem sortAge_err (env : SelEnv) (arns : List String)
    (ages : String → Option Int) (a : String)
    (h2 : 2 ≤ arns.length) (hb : buildAges env arns = .ok ages)
    (ha : a ∈ arns) (hn : ages a = none) :
    ∃ b, sortECSContainersByInstanceAge env arns = .error (.arnAgeEmpty b) := by
  refine ⟨(arns.find? (fun x => (ages x).isNone)).getD "", ?_⟩
  unfold sortECSContainersByInstanceAge
  rw [hb]
  have h1 : ¬(arns.length ≤ 1) := by omega
  have h2' : ¬(arns.all (fun x => (ages x).isSome) = true) := by
    intro hall
    have := List.all_eq_true.mp hall a ha
    rw [hn] at this
    exact absurd this (by simp)
  simp only [if_neg h1, if_neg h2']

/-! ### Decomposition of the selector into tier contributions -/

/-- A successful `findInstances` call contributes a tier block. -/
theorem findInstances_spec (env : SelEnv) (cfg : Config)
    (filter : Option String) (st st' : SelState)
    (h : findInstances env cfg filter st = .ok st') :
    ∃ t, TierBlock env cfg filter st st' t := by
  unfold findInstances at h
  split at h
  · exact absurd h (by simp)
  case _ pages heq =>
    simp only at h
    split at h
    case isTrue hc =>
      split at h
      · exact absurd h (by simp)
      case _ sorted hs =>
        cases h
        have hperm : sorted.Perm (dedupAppend st.seen [] pages.flatten).2 :=
          sortAge_perm env _ sorted hs
        refine ⟨sorted, rfl, ⟨pages, heq, ?_⟩, ?_, ?_, ?_, ?_⟩
        · intro a ha
          exact (dedup_mem_sub pages.flatten st.seen a (hperm.mem_iff.mp ha)).1
        · intro a ha
          exact (dedup_mem_sub pages.flatten st.seen a (hperm.mem_iff.mp ha)).2
        · exact hperm.symm.nodup (dedup_nodup pages.flatten st.seen)
        · intro x
          rw [dedup_seen_iff pages.flatten st.seen x]
          simp [hperm.mem_iff]
        · intro _ hlen
          obtain ⟨ages, hb, hsome, hsorted⟩ :=
            sortAge_sorted env _ sorted (by omega) hs
          refine ⟨(dedupAppend st.seen [] pages.flatten).2, ages,
            hperm.symm, hb, ?_, hsorted⟩
          intro a ha
          exact hsome a (hperm.mem_iff.mp ha)
    case isFalse hc =>
      cases h
      refine ⟨(dedupAppend st.seen [] pages.flatten).2, rfl, ⟨pages, heq, ?_⟩,
        ?_, dedup_nodup pages.flatten st.seen,
        fun x => dedup_seen_iff pages.flatten st.seen x, ?_⟩
      · intro a ha
        exact (dedup_mem_sub pages.flatten st.seen a ha).1
      · intro a ha
        exact (dedup_mem_sub pages.flatten st.seen a ha).2
      · intro hsa hlen
        exact absurd ⟨by simp [hsa], hlen⟩ hc

/-- A tier block preserves the selector invariant. -/
theorem tierBlock_inv {env : SelEnv} {cfg : Config} {filter : Option String}
    {st st' : SelState} {t : List String}
    (hb : TierBlock env cfg filter st st' t) (hi : SelInv st) : SelInv st' := by
  obtain ⟨harns, _, hfresh, hnodup, hseen, _⟩ := hb
  constructor
  · rw [harns, List.nodup_append]
    refine ⟨hi.1, hnodup, ?_⟩
    intro a ha hat
    exact hfresh a hat (hi.2 a ha)
  · intro a ha
    rw [harns, List.mem_append] at ha
    rw [hseen]
    rcases ha with ha | ha
    · exact Or.inl (hi.2 a ha)
    · exact Or.inr ha

/-- One optionally-executed tier of the selector pipeline. -/
theorem ifTier_spec (env : SelEnv) (cfg : Config) (filter : Option String)
    (p : Prop) [Decidable p] (st st' : SelState)
    (h : (if p then findInstances env cfg filter st else .ok st) = .ok st') :
    ∃ t, st'.allArns = st.allArns ++ t ∧ (SelInv st → SelInv st') ∧
      (¬p → st' = st ∧ t = []) ∧
      (p → TierBlock env cfg filter st st' t) := by
  by_cases hp : p
  · rw [if_pos hp] at h
    obtain ⟨t, hb⟩ := findInstances_spec env cfg filter st st' h
    exact ⟨t, hb.1, fun hi => tierBlock_inv hb hi,
      fun hnp => absurd hp hnp, fun _ => hb⟩
  · rw [if_neg hp] at h
    cases h
    exact ⟨[], by simp, fun hi => hi, fun _ => ⟨rfl, rfl⟩,
      fun hpp => absurd hpp hp⟩

/-- Master decomposition of a successful selector run: the merged candidate
list is the concatenation of the four tier blocks, in the fixed priority
order stale-agent, machine-type, low-task-count, catch-all; a disabled tier
contributes the empty block, an enabled tier a `TierBlock`; and the merged
list satisfies the selector invariant (in particular it has no
duplicates). -/
theorem selectorStates_decomp (env : SelEnv) (cfg : Config) (st4 : SelState)
    (h : selectorStates env cfg = .ok st4) :
    ∃ st1 st2 st3 b1 b2 b3 b4,
      st4.allArns = b1 ++ (b2 ++ (b3 ++ b4)) ∧
      SelInv st4 ∧
      (cfg.AgentVersionThreshold = "" → b1 = []) ∧
      (cfg.AgentVersionThreshold ≠ "" →
         TierBlock env cfg (some (agentFilter cfg)) ⟨[], []⟩ st1 b1) ∧
      (cfg.InstanceType = "" → b2 = []) ∧
      (cfg.InstanceType ≠ "" →
         TierBlock env cfg (some (typeFilter cfg)) st1 st2 b2) ∧
      (cfg.TaskCountDetect = false → b3 = []) ∧
      (cfg.TaskCountDetect = true → ∃ rc, drainAtTaskCount env = .ok rc ∧
         TierBlock env cfg (some (tcFilter rc)) st2 st3 b3) ∧
      TierBlock env cfg none st3 st4 b4 := by
  unfold selectorStates at h
  split at h
  · exact absurd h (by simp)
  case _ st3 heq3 =>
    obtain ⟨b4, hblock4⟩ := findInstances_spec env cfg none st3 st4 h
    unfold selectorStates3 at heq3
    cases hA : (if cfg.AgentVersionThreshold ≠ "" then
        findInstances env cfg (some (agentFilter cfg)) ⟨[], []⟩
      else Except.ok ⟨[], []⟩) with
    | error e =>
        simp only [hA] at heq3
        exact absurd heq3 (by simp)
    | ok st1 =>
      simp only [hA] at heq3
      cases hB : (if cfg.InstanceType ≠ "" then
          findInstances env cfg (some (typeFilter cfg)) st1
        else Except.ok st1) with
      | error e =>
          simp only [hB] at heq3
          exact absurd heq3 (by simp)
      | ok st2 =>
        simp only [hB] at heq3
        obtain ⟨b1, ha1, hi1, hskip1, hrun1⟩ :=
          ifTier_spec env cfg (some (agentFilter cfg))
            (cfg.AgentVersionThreshold ≠ "") ⟨[], []⟩ st1 hA
        obtain ⟨b2, ha2, hi2, hskip2, hrun2⟩ :=
          ifTier_spec env cfg (some (typeFilter cfg))
            (cfg.InstanceType ≠ "") st1 st2 hB
        have hstep3 : ∃ b3, st3.allArns = st2.allArns ++ b3 ∧
            (SelInv st2 → SelInv st3) ∧
            (cfg.TaskCountDetect = false → b3 = []) ∧
            (cfg.TaskCountDetect = true → ∃ rc, drainAtTaskCount env = .ok rc ∧
               TierBlock env cfg (some (tcFilter rc)) st2 st3 b3) := by
          by_cases hC : cfg.TaskCountDetect = true
          · rw [if_pos hC] at heq3
            cases hD : drainAtTaskCount env with
            | error e =>
                simp only [hD] at heq3
                exact absurd heq3 (by simp)
            | ok rc =>
              simp only [hD] at heq3
              obtain ⟨b3, hb3⟩ :=
                findInstances_spec env cfg (some (tcFilter rc)) st2 st3 heq3
              exact ⟨b3, hb3.1, fun hi => tierBlock_inv hb3 hi,
                fun hf => absurd hC (by simp [hf]), fun _ => ⟨rc, rfl, hb3⟩⟩
          · rw [if_neg hC] at heq3
            cases heq3
            exact ⟨[], by simp, fun hi => hi, fun _ => rfl,
              fun ht => absurd ht hC⟩
        obtain ⟨b3, ha3, hi3, hskip3, hrun3⟩ := hstep3
        refine ⟨st1, st2, st3, b1, b2, b3, b4, ?_, ?_, ?_, ?_, ?_, ?_,
          hskip3, hrun3, hblock4⟩
        · rw [hblock4.1, ha3, ha2, ha1]
          simp
        · refine tierBlock_inv hblock4 (hi3 (hi2 (hi1 ?_)))
          exact ⟨List.nodup_nil, by simp⟩
        · intro he
          exact (hskip1 (by simp [he])).2
        · exact hrun1
        · intro he
          exact (hskip2 (by simp [he])).2
        · exact hrun2

/-! ### Claims about the selector -/

/-- C1 (code bug): the active-service-count lookup does NOT abort on a
failing control-plane call.  In `envC1` the `DescribeClusters` request
fails, yet `drainAtTaskCount` returns `(-1, nil)` (src/downscaler/ecs.go:28-30
drops `err`), and the selector continues: it issues the later
`runningTasksCount <= -1` listing (whose answer "i-low" heads the output)
and the catch-all listing, and succeeds — contradicting the claim that the
operation returns a non-nil error, that it propagates to `Run`'s caller,
and that no later control-plane call is made. -/
theorem error_propagation_C1_bug :
    drainAtTaskCount envC1 = .ok (-1) ∧
    findDrainableContainerInstances envC1 cfgC1 = .ok ["i-low", "i-a"] :=
  ⟨rfl, rfl⟩

/-- C3: when the merged candidate list is longer than the configured desired
count, the selector succeeds with exactly the first
`len(allArns) - DesiredCount` merged candidates; otherwise it fails with the
insufficient-capacity error (never an empty list).  The hypothesis
`0 ≤ DesiredCount` mirrors the CLI validation (`desired-count must be a
positive integer`, src/unnamed/part_002:42-44). -/
theorem selector_length_C3 (env : SelEnv) (cfg : Config) (st : SelState)
    (hd : 0 ≤ cfg.DesiredCount)
    (h : selectorStates env cfg = .ok st) :
    (0 < (st.allArns.length : Int) - cfg.DesiredCount →
       ∃ out, findDrainableContainerInstances env cfg = .ok out ∧
         (out.length : Int) = (st.allArns.length : Int) - cfg.DesiredCount ∧
         out = st.allArns.take ((st.allArns.length : Int) - cfg.DesiredCount).toNat) ∧
    ((st.allArns.length : Int) - cfg.DesiredCount ≤ 0 →
       findDrainableContainerInstances env cfg =
         .error (.insufficient cfg.DesiredCount st.allArns.length)) := by
  unfold findDrainableContainerInstances
  simp only [h]
  constructor
  · intro hpos
    rw [if_neg (by omega)]
    refine ⟨_, rfl, ?_, rfl⟩
    rw [List.length_take]
    have hk : ((st.allArns.length : Int) - cfg.DesiredCount).toNat ≤
        st.allArns.length := by omega
    rw [Nat.min_eq_left hk]
    omega
  · intro hle
    rw [if_pos (by omega)]

/-- C3 witness: on `envA`/`cfgA` the merged list has 3 candidates, the
target is 1, and the selector returns the first 2. -/
theorem selector_length_C3_witness :
    ∃ out, findDrainableContainerInstances envA cfgA = .ok out ∧
      (out.length : Int) =
        (((⟨["a", "b", "c"], ["c", "b", "a"]⟩ : SelState).allArns.length : Int) -
          cfgA.DesiredCount) ∧
      out = (⟨["a", "b", "c"], ["c", "b", "a"]⟩ : SelState).allArns.take
        ((((⟨["a", "b", "c"], ["c", "b", "a"]⟩ : SelState).allArns.length : Int) -
          cfgA.DesiredCount).toNat) :=
  (selector_length_C3 envA cfgA ⟨["a", "b", "c"], ["c", "b", "a"]⟩
    (by decide) rfl).1 (by decide)

/-- C4: no container-instance identifier appears more than once in the
selector's output, whatever the tier configuration and whatever overlaps
exist between (pages of) the tier listings. -/
theorem selector_nodup_C4 (env : SelEnv) (cfg : Config) (out : List String)
    (h : findDrainableContainerInstances env cfg = .ok out) : out.Nodup := by
  unfold findDrainableContainerInstances at h
  split at h
  · exact absurd h (by simp)
  case _ st4 heq =>
    dsimp only at h
    split at h
    · exact absurd h (by simp)
    · cases h
      obtain ⟨_, _, _, _, _, _, _, _, hinv, _⟩ :=
        selectorStates_decomp env cfg st4 heq
      exact hinv.1.sublist (List.take_sublist _ _)

/-- C4 witness: on `envA` (whose catch-all pages overlap on "b") the output
has no duplicate. -/
theorem selector_nodup_C4_witness : (["a", "b"] : List String).Nodup :=
  selector_nodup_C4 envA cfgA ["a", "b"] rfl

/-- C7: the selector output is a prefix of the concatenation of the four
tier blocks in the fixed priority order (stale-agent, machine-type,
low-task-count, catch-all); a disabled tier contributes the empty block, and
every member of an enabled tier's block comes from that tier's listing.  In
particular every stale-agent instance precedes every instance of a
lower-priority tier. -/
theorem selector_tiers_C7 (env : SelEnv) (cfg : Config) (out : List String)
    (h : findDrainableContainerInstances env cfg = .ok out) :
    ∃ b1 b2 b3 b4 k,
      out = (b1 ++ (b2 ++ (b3 ++ b4))).take k ∧
      (cfg.AgentVersionThreshold = "" → b1 = []) ∧
      (cfg.AgentVersionThreshold ≠ "" → fromListing env (some (agentFilter cfg)) b1) ∧
      (cfg.InstanceType = "" → b2 = []) ∧
      (cfg.InstanceType ≠ "" → fromListing env (some (typeFilter cfg)) b2) ∧
      (cfg.TaskCountDetect = false → b3 = []) ∧
      (cfg.TaskCountDetect = true → ∃ rc, drainAtTaskCount env = .ok rc ∧
         fromListing env (some (tcFilter rc)) b3) ∧
      fromListing env none b4 := by
  unfold findDrainableContainerInstances at h
  split at h
  · exact absurd h (by simp)
  case _ st4 heq =>
    dsimp only at h
    split at h
    · exact absurd h (by simp)
    · cases h
      obtain ⟨st1, st2, st3, b1, b2, b3, b4, hcat, _, h1e, h1, h2e, h2, h3e, h3, h4⟩ :=
        selectorStates_decomp env cfg st4 heq
      refine ⟨b1, b2, b3, b4, _, by rw [← hcat], h1e, ?_, h2e, ?_, h3e, ?_, ?_⟩
      · intro hne
        exact (h1 hne).2.1
      · intro hne
        exact (h2 hne).2.1
      · intro ht
        obtain ⟨rc, hrc, hb⟩ := h3 ht
        exact ⟨rc, hrc, hb.2.1⟩
      · exact h4.2.1

/-- C7 witness: on `envB`/`cfgB` the stale-agent block ["old1", "old2"]
precedes the catch-all block ["new1", "new2"] and the output is the 3-entry
prefix of their concatenation. -/
theorem selector_tiers_C7_witness :
    ∃ b1 b2 b3 b4 k,
      (["old1", "old2", "new1"] : List String) = (b1 ++ (b2 ++ (b3 ++ b4))).take k ∧
      (cfgB.AgentVersionThreshold = "" → b1 = []) ∧
      (cfgB.AgentVersionThreshold ≠ "" → fromListing envB (some (agentFilter cfgB)) b1) ∧
      (cfgB.InstanceType = "" → b2 = []) ∧
      (cfgB.InstanceType ≠ "" → fromListing envB (some (typeFilter cfgB)) b2) ∧
      (cfgB.TaskCountDetect = false → b3 = []) ∧
      (cfgB.TaskCountDetect = true → ∃ rc, drainAtTaskCount envB = .ok rc ∧
         fromListing envB (some (tcFilter rc)) b3) ∧
      fromListing envB none b4 :=
  selector_tiers_C7 envB cfgB ["old1", "old2", "new1"] rfl

/-- C8: with age-sorting enabled, each tier block of the output was sorted
independently: it is a permutation of its tier's deduplicated listing, every
launch time in it resolved through the two-step join (`buildAges`), and the
resolved launch times are non-decreasing along the block (oldest first). -/
theorem selector_age_C8 (env : SelEnv) (cfg : Config) (out : List String)
    (hs : cfg.SortByAge = true)
    (h : findDrainableContainerInstances env cfg = .ok out) :
    ∃ b1 b2 b3 b4 k,
      out = (b1 ++ (b2 ++ (b3 ++ b4))).take k ∧
      ∀ b, (b = b1 ∨ b = b2 ∨ b = b3 ∨ b = b4) → 1 < b.length →
        ∃ pre ages, pre.Perm b ∧ buildAges env pre = .ok ages ∧
          (∀ a ∈ b, ∃ x, ages a = some x) ∧
          List.Pairwise
            (fun a c => ∃ x y, ages a = some x ∧ ages c = some y ∧ x ≤ y) b := by
  unfold findDrainableContainerInstances at h
  split at h
  · exact absurd h (by simp)
  case _ st4 heq =>
    dsimp only at h
    split at h
    · exact absurd h (by simp)
    · cases h
      obtain ⟨st1, st2, st3, b1, b2, b3, b4, hcat, _, h1e, h1, h2e, h2, h3e, h3, h4⟩ :=
        selectorStates_decomp env cfg st4 heq
      have hblock : ∀ (filter : Option String) (stp stq : SelState) (t : List String),
          TierBlock env cfg filter stp stq t → 1 < t.length →
          ∃ pre ages, pre.Perm t ∧ buildAges env pre = .ok ages ∧
            (∀ a ∈ t, ∃ x, ages a = some x) ∧
            List.Pairwise
              (fun a c => ∃ x y, ages a = some x ∧ ages c = some y ∧ x ≤ y) t := by
        intro filter stp stq t hb hlen
        obtain ⟨pre, ages, hperm, hba, hsome, hsorted⟩ := hb.2.2.2.2.2 hs hlen
        refine ⟨pre, ages, hperm, hba, ?_, ?_⟩
        · intro a ha
          exact Option.isSome_iff_exists.mp (hsome a ha)
        · refine List.Pairwise.imp_of_mem ?_ hsorted
          intro a c ha hc hr
          obtain ⟨x, hx⟩ := Option.isSome_iff_exists.mp (hsome a ha)
          obtain ⟨y, hy⟩ := Option.isSome_iff_exists.mp (hsome c hc)
          refine ⟨x, y, hx, hy, ?_⟩
          rw [hx, hy] at hr
          simpa using hr
      refine ⟨b1, b2, b3, b4, _, by rw [← hcat], ?_⟩
      intro b hb hlen
      rcases hb with rfl | rfl | rfl | rfl
      · by_cases he : cfg.AgentVersionThreshold = ""
        · rw [h1e he] at hlen
          exact absurd hlen (by simp)
        · exact hblock _ _ _ _ (h1 he) hlen
      · by_cases he : cfg.InstanceType = ""
        · rw [h2e he] at hlen
          exact absurd hlen (by simp)
        · exact hblock _ _ _ _ (h2 he) hlen
      · by_cases he : cfg.TaskCountDetect = true
        · obtain ⟨rc, _, hbk⟩ := h3 he
          exact hblock _ _ _ _ hbk hlen
        · rw [h3e (by simpa using he)] at hlen
          exact absurd hlen (by simp)
      · exact hblock _ _ _ _ h4 hlen

/-- C8 witness: on `envC`/`cfgC` the catch-all block is age-sorted to
["y", "z", "x"] (times 1, 2, 3) and the output is its 2-entry prefix. -/
theorem selector_age_C8_witness :
    ∃ b1 b2 b3 b4 k,
      (["y", "z"] : List String) = (b1 ++ (b2 ++ (b3 ++ b4))).take k ∧
      ∀ b, (b = b1 ∨ b = b2 ∨ b = b3 ∨ b = b4) → 1 < b.length →
        ∃ pre ages, pre.Perm b ∧ buildAges envC pre = .ok ages ∧
          (∀ a ∈ b, ∃ x, ages a = some x) ∧
          List.Pairwise
            (fun a c => ∃ x y, ages a = some x ∧ ages c = some y ∧ x ≤ y) b :=
  selector_age_C8 envC cfgC ["y", "z"] rfl rfl

/-- C9: an unresolvable launch time in a tier of at least two candidates is
a hard error.  First conjunct: `sortECSContainersByInstanceAge` returns the
"container ARN age empty" error whenever some candidate's launch time is
unresolved in the built age map.  Second conjunct: that sort error makes the
tier evaluation (`findInstances`) fail with the same error, so the selector
fails.  Third conjunct: a selector failure aborts `Run` immediately with the
same error, before any orchestration call is made. -/
theorem selector_age_err_C9 :
    (∀ (env : SelEnv) (arns : List String) (ages : String → Option Int)
       (a : String),
       2 ≤ arns.length → buildAges env arns = .ok ages → a ∈ arns →
       ages a = none →
       ∃ b, sortECSContainersByInstanceAge env arns = .error (.arnAgeEmpty b)) ∧
    (∀ (env : SelEnv) (cfg : Config) (filter : Option String) (st : SelState)
       (pages : List (List String)) (e : GoError),
       cfg.SortByAge = true → env.listInstances filter = .ok pages →
       1 < (dedupAppend st.seen [] pages.flatten).2.length →
       sortECSContainersByInstanceAge env
         (dedupAppend st.seen [] pages.flatten).2 = .error e →
       findInstances env cfg filter st = .error e) ∧
    (∀ (selEnv : SelEnv) (cfg : Config) (s : OS) (e : GoError),
       findDrainableContainerInstances selEnv cfg = .error e →
       Run selEnv cfg s = (.error e, s)) := by
  refine ⟨?_, ?_, ?_⟩
  · intro env arns ages a h2 hb ha hn
    exact sortAge_err env arns ages a h2 hb ha hn
  · intro env cfg filter st pages e hs hl hlen herr
    unfold findInstances
    simp only [hl]
    rw [if_pos ⟨hs, hlen⟩]
    simp only [herr]
  · intro selEnv cfg s e h
    have hp : RunPrep selEnv cfg s = (.error e, s) := by
      unfold RunPrep
      rw [OrchM.bind_run]
      simp only [liftSel, h]
    unfold Run
    rw [OrchM.bind_run, hp]

/-- C9 witness: in `envD` the candidate "y" of the two-candidate list
["x", "y"] has no resolvable launch time, and the sort errors out. -/
theorem selector_age_err_C9_witness :
    ∃ b, sortECSContainersByInstanceAge envD ["x", "y"] =
      .error (.arnAgeEmpty b) :=
  selector_age_err_C9.1 envD ["x", "y"] agesD "y" (by decide) rfl
    (by simp) rfl

/-! ### Combinator lemmas for the orchestrator monad -/

/-- A `callCP` appends exactly its event to the trace. -/
theorem callCP_events {α : Type} (ev : CPEvent)
    (parse : CPResp → Except GoError α) (s : OS) :
    (callCP ev parse s).2.events = s.events ++ [ev] := by
  unfold callCP
  cases s.resps with
  | nil => rfl
  | cons r rest => rfl

theorem emitsOnly_pure {α : Type} (a : α) (P : CPEvent → Prop) :
    EmitsOnly (pure a : OrchM α) P :=
  fun _ _ h => Or.inl h

theorem emitsOnly_orchThrow {α : Type} (e : GoError) (P : CPEvent → Prop) :
    EmitsOnly (orchThrow e : OrchM α) P :=
  fun _ _ h => Or.inl h

theorem emitsOnly_liftSel {α : Type} (x : Except GoError α) (P : CPEvent → Prop) :
    EmitsOnly (liftSel x) P :=
  fun _ _ h => Or.inl h

theorem emitsOnly_callCP {α : Type} (ev : CPEvent)
    (parse : CPResp → Except GoError α) (P : CPEvent → Prop) (hP : P ev) :
    EmitsOnly (callCP ev parse) P := by
  intro s ev' h
  rw [callCP_events] at h
  rcases List.mem_append.mp h with h | h
  · exact Or.inl h
  · rcases List.mem_singleton.mp h with rfl
    exact Or.inr hP

theorem emitsOnly_bind {α β : Type} {x : OrchM α} {f : α → OrchM β}
    {P : CPEvent → Prop} (hx : EmitsOnly x P) (hf : ∀ a, EmitsOnly (f a) P) :
    EmitsOnly (x >>= f) P := by
  intro s ev h
  rw [OrchM.bind_run] at h
  rcases hxs : x s with ⟨r, s'⟩
  rw [hxs] at h
  cases r with
  | ok a =>
      rcases hf a s' ev h with h' | h'
      · rcases hx s ev (by rw [hxs]; exact h') with h'' | h''
        · exact Or.inl h''
        · exact Or.inr h''
      · exact Or.inr h'
  | error e =>
      rcases hx s ev (by rw [hxs]; exact h) with h'' | h''
      · exact Or.inl h''
      · exact Or.inr h''

theorem emitsOnly_mono {α : Type} {x : OrchM α} {P Q : CPEvent → Prop}
    (h : EmitsOnly x P) (himp : ∀ e, P e → Q e) : EmitsOnly x Q := by
  intro s ev hm
  rcases h s ev hm with h' | h'
  · exact Or.inl h'
  · exact Or.inr (himp ev h')

theorem emitsOnly_ite {α : Type} (c : Prop) [Decidable c] {x y : OrchM α}
    {P : CPEvent → Prop} (hx : EmitsOnly x P) (hy : EmitsOnly y P) :
    EmitsOnly (if c then x else y) P := by
  by_cases hc : c
  · rw [if_pos hc]; exact hx
  · rw [if_neg hc]; exact hy

theorem emitsOnly_ite_false {α : Type} {c : Prop} [Decidable c] {x y : OrchM α}
    {P : CPEvent → Prop} (hc : ¬c) (hy : EmitsOnly y P) :
    EmitsOnly (if c then x else y) P := by
  rw [if_neg hc]; exact hy

theorem noNoRoom_pure {α : Type} (a : α) : NoNoRoom (pure a : OrchM α) := by
  intro s
  simp [OrchM.pure_run]

theorem noNoRoom_orchThrow {α : Type} (e : GoError) (he : e ≠ .noRoom) :
    NoNoRoom (orchThrow e : OrchM α) := by
  intro s
  simp [orchThrow]
  intro h
  exact he h

theorem noNoRoom_callCP {α : Type} (ev : CPEvent)
    (parse : CPResp → Except GoError α)
    (hp : ∀ r, parse r ≠ .error .noRoom) : NoNoRoom (callCP ev parse) := by
  intro s
  unfold callCP
  cases s.resps with
  | nil => simp
  | cons r rest =>
      cases r with
      | fail e => simp
      | svcList ds => exact hp _
      | svc d => exact hp _
      | asgGroups ds => exact hp _
      | drained ids => exact hp _
      | done => exact hp _

theorem noNoRoom_bind {α β : Type} {x : OrchM α} {f : α → OrchM β}
    (hx : NoNoRoom x) (hf : ∀ a, NoNoRoom (f a)) : NoNoRoom (x >>= f) := by
  intro s
  rw [OrchM.bind_run]
  rcases hxs : x s with ⟨r, s'⟩
  cases r with
  | ok a => exact hf a s'
  | error e =>
      intro hcontra
      apply hx s
      rw [hxs]
      simp only [Except.error.injEq] at hcontra
      simp [hcontra]

theorem noNoRoom_ite {α : Type} (c : Prop) [Decidable c] {x y : OrchM α}
    (hx : NoNoRoom x) (hy : NoNoRoom y) : NoNoRoom (if c then x else y) := by
  by_cases hc : c
  · rw [if_pos hc]; exact hx
  · rw [if_neg hc]; exact hy

theorem emitsOnly_ite_true {α : Type} {c : Prop} [Decidable c] {x y : OrchM α}
    {P : CPEvent → Prop} (hc : c) (hx : EmitsOnly x P) :
    EmitsOnly (if c then x else y) P := by
  rw [if_pos hc]; exact hx

/-- `terminateEach` only emits terminate events, for ids of its input
list. -/
theorem emitsOnly_terminateEach (cfg : Config) :
    ∀ ids, EmitsOnly (terminateEach cfg ids) (fun e => ∃ i, e = CPEvent.terminate i)
  | [] => emitsOnly_pure _ _
  | i :: rest => by
      unfold terminateEach
      exact emitsOnly_bind (emitsOnly_callCP _ _ _ ⟨i, rfl⟩)
        (fun _ => emitsOnly_terminateEach cfg rest)

/-- The events one `scaleTail` run can emit. -/
theorem emitsOnly_scaleTail (cfg : Config) (svc : Int) (cis : List String)
    (inst dc : Int) :
    EmitsOnly (scaleTail cfg svc cis inst dc) (fun e =>
      e = CPEvent.drain cis ∨ e = CPEvent.updateService dc ∨
      e = CPEvent.waitServicesStable ∨ e = CPEvent.updateASG inst inst none ∨
      e = CPEvent.waitGroupInService ∨ (∃ i, e = CPEvent.terminate i) ∨
      (∃ ids, e = CPEvent.waitTerminated ids)) := by
  unfold scaleTail
  refine emitsOnly_bind ?_ ?_
  · unfold drainContainerInstances
    exact emitsOnly_callCP _ _ _ (by simp)
  intro drained
  refine emitsOnly_bind ?_ ?_
  · refine emitsOnly_ite _ ?_ (emitsOnly_pure _ _)
    refine emitsOnly_bind ?_ ?_
    · unfold updateECSService
      exact emitsOnly_bind (emitsOnly_callCP _ _ _ (by simp))
        (fun _ => emitsOnly_bind (emitsOnly_callCP _ _ _ (by simp))
          (fun _ => emitsOnly_pure _ _))
    intro s'
    refine emitsOnly_ite _ ?_ (emitsOnly_pure _ _)
    refine emitsOnly_bind ?_ (fun _ => emitsOnly_pure _ _)
    unfold updateASG
    exact emitsOnly_bind (emitsOnly_callCP _ _ _ (by simp))
      (fun _ => emitsOnly_callCP _ _ _ (by simp))
  intro service'
  refine emitsOnly_bind ?_ (fun _ => emitsOnly_pure _ _)
  unfold terminateContainerInstances
  refine emitsOnly_bind ?_ ?_
  · refine emitsOnly_mono (emitsOnly_terminateEach cfg drained) ?_
    intro e he
    rcases he with ⟨i, rfl⟩
    simp
  intro _
  exact emitsOnly_callCP _ _ _ (by simp)

/-- Any updateASG event a `scaleTail` run emits carries exactly the computed
instance target as MinSize and DesiredCapacity, and no MaxSize. -/
theorem scaleTail_asgArgs (cfg : Config) (svc : Int) (cis : List String)
    (inst dc : Int) :
    EmitsOnly (scaleTail cfg svc cis inst dc)
      (fun e => ∀ m d mx, e = CPEvent.updateASG m d mx →
        m = inst ∧ d = inst ∧ mx = none) := by
  refine emitsOnly_mono (emitsOnly_scaleTail cfg svc cis inst dc) ?_
  intro e he m d mx heq
  subst heq
  rcases he with h | h | h | h | h | ⟨i, h⟩ | ⟨ids, h⟩ <;> simp_all

/-- In flip mode `scaleTail` never emits an instance-group capacity
update. -/
theorem emitsOnly_scaleTail_flip (cfg : Config) (svc : Int) (cis : List String)
    (inst dc : Int) (hf : cfg.InstanceFlip = true) :
    EmitsOnly (scaleTail cfg svc cis inst dc) (fun e => ¬ isCapacityUpdate e) := by
  unfold scaleTail
  refine emitsOnly_bind ?_ ?_
  · unfold drainContainerInstances
    exact emitsOnly_callCP _ _ _ (by simp [isCapacityUpdate])
  intro drained
  refine emitsOnly_bind ?_ ?_
  · refine emitsOnly_ite _ ?_ (emitsOnly_pure _ _)
    refine emitsOnly_bind ?_ ?_
    · unfold updateECSService
      exact emitsOnly_bind (emitsOnly_callCP _ _ _ (by simp [isCapacityUpdate]))
        (fun _ => emitsOnly_bind (emitsOnly_callCP _ _ _ (by simp [isCapacityUpdate]))
          (fun _ => emitsOnly_pure _ _))
    intro s'
    exact emitsOnly_ite_false (by simp [hf]) (emitsOnly_pure _ _)
  intro service'
  refine emitsOnly_bind ?_ (fun _ => emitsOnly_pure _ _)
  unfold terminateContainerInstances
  refine emitsOnly_bind ?_ ?_
  · refine emitsOnly_mono (emitsOnly_terminateEach cfg drained) ?_
    intro e he
    rcases he with ⟨i, rfl⟩
    simp [isCapacityUpdate]
  intro _
  exact emitsOnly_callCP _ _ _ (by simp [isCapacityUpdate])

/-- In flip mode `ScaleDown` never emits an instance-group capacity
update. -/
theorem emitsOnly_ScaleDown_flip (cfg : Config) (svc : Int) (cis : List String)
    (hf : cfg.InstanceFlip = true) :
    EmitsOnly (ScaleDown cfg svc cis) (fun e => ¬ isCapacityUpdate e) := by
  unfold ScaleDown
  refine emitsOnly_bind (emitsOnly_ite_false (by simp [hf]) (emitsOnly_pure _ _)) ?_
  intro inst
  exact emitsOnly_scaleTail_flip cfg svc cis inst _ hf

/-- In flip mode the batch loop never emits an instance-group capacity
update. -/
theorem emitsOnly_runBatches_flip (cfg : Config) (maxR : Int)
    (hf : cfg.InstanceFlip = true) :
    ∀ fuel svc cis start,
      EmitsOnly (runBatches cfg maxR fuel svc cis start)
        (fun e => ¬ isCapacityUpdate e)
  | 0, _, _, _ => emitsOnly_orchThrow _ _
  | fuel + 1, svc, cis, start => by
      unfold runBatches
      refine emitsOnly_ite _ ?_ (emitsOnly_pure _ _)
      refine emitsOnly_bind (emitsOnly_ScaleDown_flip cfg svc _ hf) ?_
      intro svc'
      exact emitsOnly_runBatches_flip cfg maxR hf fuel svc' cis (start + cfg.BatchSize)

/-- In flip mode `Run` never emits an instance-group capacity update. -/
theorem emitsOnly_Run_flip (selEnv : SelEnv) (cfg : Config)
    (hf : cfg.InstanceFlip = true) :
    EmitsOnly (Run selEnv cfg) (fun e => ¬ isCapacityUpdate e) := by
  unfold Run
  refine emitsOnly_bind ?_ ?_
  · unfold RunPrep
    refine emitsOnly_bind (emitsOnly_liftSel _ _) ?_
    intro cis
    refine emitsOnly_bind ?_ ?_
    · unfold ecsService
      exact emitsOnly_callCP _ _ _ (by simp [isCapacityUpdate])
    intro svc
    refine emitsOnly_ite _ (emitsOnly_orchThrow _ _) ?_
    exact emitsOnly_bind (emitsOnly_runBatches_flip cfg _ hf _ _ _ _)
      (fun _ => emitsOnly_pure _ _)
  intro orig
  refine emitsOnly_ite_true (by simp [hf]) ?_
  unfold updateECSService
  exact emitsOnly_bind
    (emitsOnly_bind (emitsOnly_callCP _ _ _ (by simp [isCapacityUpdate]))
      (fun _ => emitsOnly_bind (emitsOnly_callCP _ _ _ (by simp [isCapacityUpdate]))
        (fun _ => emitsOnly_pure _ _)))
    (fun _ => emitsOnly_pure _ _)

theorem noNoRoom_ecsService (cfg : Config) : NoNoRoom (ecsService cfg) := by
  apply noNoRoom_callCP
  intro r
  cases r with
  | svcList ds => rcases ds with _ | ⟨d, _ | ⟨d2, tl⟩⟩ <;> simp
  | svc d => simp
  | asgGroups ds => simp
  | drained ids => simp
  | done => simp
  | fail e => simp

theorem noNoRoom_updateECSService (cfg : Config) (d : Int) :
    NoNoRoom (updateECSService cfg d) := by
  unfold updateECSService
  refine noNoRoom_bind ?_ ?_
  · apply noNoRoom_callCP
    intro r
    cases r <;> simp
  intro sv
  exact noNoRoom_bind (noNoRoom_callCP _ _ (by intro r; cases r <;> simp))
    (fun _ => noNoRoom_pure _)

theorem noNoRoom_updateASG (cfg : Config) (m : Int) (b : Bool) :
    NoNoRoom (updateASG cfg m b) := by
  unfold updateASG
  exact noNoRoom_bind (noNoRoom_callCP _ _ (by intro r; cases r <;> simp))
    (fun _ => noNoRoom_callCP _ _ (by intro r; cases r <;> simp))

theorem noNoRoom_drainCI (cfg : Config) (arns : List String) :
    NoNoRoom (drainContainerInstances cfg arns) := by
  unfold drainContainerInstances
  apply noNoRoom_callCP
  intro r
  cases r <;> simp

theorem noNoRoom_terminateEach (cfg : Config) :
    ∀ ids, NoNoRoom (terminateEach cfg ids)
  | [] => noNoRoom_pure _
  | i :: rest => by
      unfold terminateEach
      exact noNoRoom_bind (noNoRoom_callCP _ _ (by intro r; cases r <;> simp))
        (fun _ => noNoRoom_terminateEach cfg rest)

theorem noNoRoom_terminateCI (cfg : Config) (ids : List String) :
    NoNoRoom (terminateContainerInstances cfg ids) := by
  unfold terminateContainerInstances
  exact noNoRoom_bind (noNoRoom_terminateEach cfg ids)
    (fun _ => noNoRoom_callCP _ _ (by intro r; cases r <;> simp))

theorem noNoRoom_describeASG (cfg : Config) : NoNoRoom (describeASG cfg) := by
  apply noNoRoom_callCP
  intro r
  cases r with
  | asgGroups ds => rcases ds with _ | ⟨g, tl⟩ <;> simp
  | svcList ds => simp
  | svc d => simp
  | drained ids => simp
  | done => simp
  | fail e => simp

theorem noNoRoom_scaleTail (cfg : Config) (svc : Int) (cis : List String)
    (inst dc : Int) : NoNoRoom (scaleTail cfg svc cis inst dc) := by
  unfold scaleTail
  refine noNoRoom_bind (noNoRoom_drainCI cfg cis) ?_
  intro drained
  refine noNoRoom_bind ?_ ?_
  · refine noNoRoom_ite _ ?_ (noNoRoom_pure _)
    refine noNoRoom_bind (noNoRoom_updateECSService cfg _) ?_
    intro s'
    refine noNoRoom_ite _ ?_ (noNoRoom_pure _)
    exact noNoRoom_bind (noNoRoom_updateASG cfg _ _) (fun _ => noNoRoom_pure _)
  intro service'
  exact noNoRoom_bind (noNoRoom_terminateCI cfg drained)
    (fun _ => noNoRoom_pure _)

theorem noNoRoom_ScaleDown (cfg : Config) (svc : Int) (cis : List String) :
    NoNoRoom (ScaleDown cfg svc cis) := by
  unfold ScaleDown
  refine noNoRoom_bind ?_ ?_
  · refine noNoRoom_ite _ ?_ (noNoRoom_pure _)
    refine noNoRoom_bind (noNoRoom_describeASG cfg) ?_
    intro dOpt
    refine noNoRoom_ite _ ?_ (noNoRoom_pure _)
    exact noNoRoom_ite _ (noNoRoom_orchThrow _ (by simp)) (noNoRoom_pure _)
  intro inst
  exact noNoRoom_scaleTail cfg svc cis inst _

theorem noNoRoom_runBatches (cfg : Config) (maxR : Int) :
    ∀ fuel svc cis start, NoNoRoom (runBatches cfg maxR fuel svc cis start)
  | 0, _, _, _ => noNoRoom_orchThrow _ (by simp)
  | fuel + 1, svc, cis, start => by
      unfold runBatches
      refine noNoRoom_ite _ ?_ (noNoRoom_pure _)
      refine noNoRoom_bind (noNoRoom_ScaleDown cfg svc _) ?_
      intro svc'
      exact noNoRoom_runBatches cfg maxR fuel svc' cis (start + cfg.BatchSize)

/-! ### Event-trace extension lemmas -/

theorem bind_extends {α β : Type} {x : OrchM α} {f : α → OrchM β}
    (hx : ∀ s, ∃ t, (x s).2.events = s.events ++ t)
    (hf : ∀ a s, ∃ t, (f a s).2.events = s.events ++ t) :
    ∀ s, ∃ t, ((x >>= f) s).2.events = s.events ++ t := by
  intro s
  rw [OrchM.bind_run]
  rcases hxs : x s with ⟨r, s'⟩
  have hs' : ∃ t, s'.events = s.events ++ t := by
    obtain ⟨t, ht⟩ := hx s
    exact ⟨t, by rw [← ht, hxs]⟩
  obtain ⟨t1, ht1⟩ := hs'
  cases r with
  | error e => exact ⟨t1, ht1⟩
  | ok a =>
      obtain ⟨t2, ht2⟩ := hf a s'
      exact ⟨t1 ++ t2, by rw [ht2, ht1, List.append_assoc]⟩

theorem pure_extends {α : Type} (a : α) :
    ∀ s, ∃ t, ((pure a : OrchM α) s).2.events = s.events ++ t :=
  fun s => ⟨[], by simp [OrchM.pure_run]⟩

theorem orchThrow_extends {α : Type} (e : GoError) :
    ∀ s, ∃ t, ((orchThrow e : OrchM α) s).2.events = s.events ++ t :=
  fun s => ⟨[], by simp [orchThrow]⟩

theorem callCP_extends {α : Type} (ev : CPEvent)
    (parse : CPResp → Except GoError α) :
    ∀ s, ∃ t, (callCP ev parse s).2.events = s.events ++ t :=
  fun s => ⟨[ev], callCP_events ev parse s⟩

theorem ite_extends {α : Type} (c : Prop) [Decidable c] {x y : OrchM α}
    (hx : ∀ s, ∃ t, (x s).2.events = s.events ++ t)
    (hy : ∀ s, ∃ t, (y s).2.events = s.events ++ t) :
    ∀ s, ∃ t, ((if c then x else y) s).2.events = s.events ++ t := by
  by_cases hc : c
  · rw [if_pos hc]; exact hx
  · rw [if_neg hc]; exact hy

theorem updateECSService_extends (cfg : Config) (d : Int) :
    ∀ s, ∃ t, (updateECSService cfg d s).2.events = s.events ++ t := by
  unfold updateECSService
  exact bind_extends (callCP_extends _ _)
    (fun sv => bind_extends (callCP_extends _ _) (fun _ => pure_extends _))

theorem updateASG_extends (cfg : Config) (m : Int) (b : Bool) :
    ∀ s, ∃ t, (updateASG cfg m b s).2.events = s.events ++ t := by
  unfold updateASG
  exact bind_extends (callCP_extends _ _) (fun _ => callCP_extends _ _)

theorem terminateEach_extends (cfg : Config) :
    ∀ ids s, ∃ t, (terminateEach cfg ids s).2.events = s.events ++ t
  | [] => pure_extends _
  | i :: rest => by
      unfold terminateEach
      exact bind_extends (callCP_extends _ _)
        (fun _ => terminateEach_extends cfg rest)

theorem terminateCI_extends (cfg : Config) (ids : List String) :
    ∀ s, ∃ t, (terminateContainerInstances cfg ids s).2.events = s.events ++ t := by
  unfold terminateContainerInstances
  exact bind_extends (terminateEach_extends cfg ids)
    (fun _ => callCP_extends _ _)

/-- `scaleTail` records the drain of its batch first, whatever happens
afterwards. -/
theorem scaleTail_events_head (cfg : Config) (svc : Int) (cis : List String)
    (inst dc : Int) (s : OS) :
    ∃ t, (scaleTail cfg svc cis inst dc s).2.events =
      s.events ++ [CPEvent.drain cis] ++ t := by
  unfold scaleTail
  rw [OrchM.bind_run]
  unfold drainContainerInstances
  rcases hd : callCP (.drain cis) (fun r =>
    match r with
    | .drained ids => .ok ids
    | _ => .error .badOracle) s with ⟨r, s'⟩
  have hs' : s'.events = s.events ++ [CPEvent.drain cis] := by
    have h := callCP_events (.drain cis) (fun r =>
      match r with
      | .drained ids => .ok ids
      | _ => .error .badOracle) s
    rw [hd] at h
    exact h
  cases r with
  | error e => exact ⟨[], by simp [hs']⟩
  | ok drained =>
      have hk : ∀ s₁, ∃ t,
          (((if dc > 0 then do
                let s'' ← updateECSService cfg dc
                if cfg.InstanceFlip = false then do
                  let _ ← updateASG cfg inst false
                  pure s''
                else pure s''
              else pure svc : OrchM Int) >>= fun service' => do
            let _ ← terminateContainerInstances cfg drained
            pure service') s₁).2.events = s₁.events ++ t := by
        refine bind_extends ?_ ?_
        · refine ite_extends _ ?_ (pure_extends _)
          refine bind_extends (updateECSService_extends cfg dc) ?_
          intro s''
          refine ite_extends _ ?_ (pure_extends _)
          exact bind_extends (updateASG_extends cfg inst false)
            (fun _ => pure_extends _)
        · intro service'
          exact bind_extends (terminateCI_extends cfg drained)
            (fun _ => pure_extends _)
      obtain ⟨t, ht⟩ := hk s'
      exact ⟨t, by rw [ht, hs']⟩

/-- With the override flag unset, a batch whose new scheduler desired count
exceeds the live ASG desired capacity aborts with the mismatch error right
after the describe call. -/
theorem scaleDown_mismatch_eq (cfg : Config) (svc : Int) (cis : List String)
    (asgD : Int) (rest : List CPResp) (ev0 : List CPEvent)
    (hflip : cfg.InstanceFlip = false)
    (hex : svc - (cis.length : Int) > asgD)
    (hal : cfg.AllowASGMismatch = false) :
    ScaleDown cfg svc cis ⟨CPResp.asgGroups [some asgD] :: rest, ev0⟩ =
      (.error (.mismatchNotAllowed svc asgD),
       ⟨rest, ev0 ++ [CPEvent.describeASG]⟩) := by
  have hda : describeASG cfg ⟨CPResp.asgGroups [some asgD] :: rest, ev0⟩ =
      (.ok (some asgD), ⟨rest, ev0 ++ [CPEvent.describeASG]⟩) := rfl
  unfold ScaleDown
  rw [OrchM.bind_run, if_pos hflip, OrchM.bind_run, hda]
  simp only [Option.getD_some, if_pos hex, if_pos hal]
  rfl

/-- With the override flag set, the same batch proceeds into `scaleTail`
with the instance target clamped to the live ASG desired capacity minus the
batch size. -/
theorem scaleDown_clamp_eq (cfg : Config) (svc : Int) (cis : List String)
    (asgD : Int) (rest : List CPResp) (ev0 : List CPEvent)
    (hflip : cfg.InstanceFlip = false)
    (hex : svc - (cis.length : Int) > asgD)
    (hal : cfg.AllowASGMismatch = true) :
    ScaleDown cfg svc cis ⟨CPResp.asgGroups [some asgD] :: rest, ev0⟩ =
      scaleTail cfg svc cis (asgD - (cis.length : Int)) (svc - (cis.length : Int))
        ⟨rest, ev0 ++ [CPEvent.describeASG]⟩ := by
  have hda : describeASG cfg ⟨CPResp.asgGroups [some asgD] :: rest, ev0⟩ =
      (.ok (some asgD), ⟨rest, ev0 ++ [CPEvent.describeASG]⟩) := rfl
  unfold ScaleDown
  rw [OrchM.bind_run, if_pos hflip, OrchM.bind_run, hda]
  simp only [Option.getD_some, if_pos hex, if_neg (by simp [hal] : ¬(cfg.AllowASGMismatch = false))]

/-- The events one `updateASG` call can emit. -/
theorem emitsOnly_updateASG (cfg : Config) (m : Int) (b : Bool) :
    EmitsOnly (updateASG cfg m b)
      (fun e => e = CPEvent.updateASG m m (if b then some m else none) ∨
        e = CPEvent.waitGroupInService) := by
  unfold updateASG
  exact emitsOnly_bind (emitsOnly_callCP _ _ _ (Or.inl rfl))
    (fun _ => emitsOnly_callCP _ _ _ (Or.inr rfl))

/-! ### Claims about the orchestrator -/

/-- C5: in a non-flip batch whose new scheduler desired count exceeds the
live instance-group desired capacity, the batch aborts with the mismatch
error when the override flag is unset; with the flag set, the batch proceeds
(the next recorded call is the drain of the batch) and any instance-group
capacity update it issues carries exactly the clamped target — the live
group desired capacity minus the batch size — as MinSize and
DesiredCapacity, with no MaxSize.  (The warning the source logs in the
override case is an unmodelled log line.) -/
theorem scaledown_mismatch_C5 (cfg : Config) (svc : Int) (cis : List String)
    (asgD : Int) (rest : List CPResp) (ev0 : List CPEvent)
    (hflip : cfg.InstanceFlip = false)
    (hex : svc - (cis.length : Int) > asgD) :
    (cfg.AllowASGMismatch = false →
       ScaleDown cfg svc cis ⟨CPResp.asgGroups [some asgD] :: rest, ev0⟩ =
         (.error (.mismatchNotAllowed svc asgD),
          ⟨rest, ev0 ++ [CPEvent.describeASG]⟩)) ∧
    (cfg.AllowASGMismatch = true →
       (∃ t, (ScaleDown cfg svc cis
            ⟨CPResp.asgGroups [some asgD] :: rest, ev0⟩).2.events =
          ev0 ++ [CPEvent.describeASG, CPEvent.drain cis] ++ t) ∧
       (∀ m d mx, CPEvent.updateASG m d mx ∈
          (ScaleDown cfg svc cis
            ⟨CPResp.asgGroups [some asgD] :: rest, ev0⟩).2.events →
          CPEvent.updateASG m d mx ∈ ev0 ∨
            (m = asgD - (cis.length : Int) ∧ d = asgD - (cis.length : Int) ∧
             mx = none))) := by
  constructor
  · intro hal
    exact scaleDown_mismatch_eq cfg svc cis asgD rest ev0 hflip hex hal
  · intro hal
    rw [scaleDown_clamp_eq cfg svc cis asgD rest ev0 hflip hex hal]
    constructor
    · obtain ⟨t, ht⟩ := scaleTail_events_head cfg svc cis
        (asgD - (cis.length : Int)) (svc - (cis.length : Int))
        ⟨rest, ev0 ++ [CPEvent.describeASG]⟩
      refine ⟨t, ?_⟩
      rw [ht]
      simp
    · intro m d mx hmem
      rcases scaleTail_asgArgs cfg svc cis (asgD - (cis.length : Int))
        (svc - (cis.length : Int)) ⟨rest, ev0 ++ [CPEvent.describeASG]⟩ _ hmem
        with h | h
      · rcases List.mem_append.mp h with h' | h'
        · exact Or.inl h'
        · exact absurd (List.mem_singleton.mp h') (by simp)
      · exact Or.inr (h m d mx rfl)

/-- C5 witness: service desired 5, batch of 1, ASG desired 3, override
unset: the batch aborts with the mismatch error right after the ASG
describe. -/
theorem scaledown_mismatch_C5_witness :
    ScaleDown cfgA 5 ["a"] s0M =
      (.error (.mismatchNotAllowed 5 3), ⟨[], [CPEvent.describeASG]⟩) :=
  (scaledown_mismatch_C5 cfgA 5 ["a"] 3 [] [] rfl (by decide)).1 rfl

/-- C6: in flip mode, no call that updates the instance group's capacity
(min, desired, or max) is recorded at any point of the run — neither during
any batch nor during finalize. -/
theorem flip_no_asg_C6 (selEnv : SelEnv) (cfg : Config) (s : OS)
    (m d : Int) (mx : Option Int)
    (hflip : cfg.InstanceFlip = true) (hev : s.events = []) :
    CPEvent.updateASG m d mx ∉ (Run selEnv cfg s).2.events := by
  intro hmem
  rcases emitsOnly_Run_flip selEnv cfg hflip s _ hmem with h | h
  · rw [hev] at h
    exact absurd h (List.not_mem_nil _)
  · exact h trivial

/-- C6 witness: the flip run over `envF`/`cfgF` (two batches plus a
restoration attempt) records no capacity update. -/
theorem flip_no_asg_C6_witness :
    CPEvent.updateASG 1 1 none ∉ (Run envF cfgF s0F).2.events :=
  flip_no_asg_C6 envF cfgF s0F 1 1 none rfl rfl

/-- C2 (amended): in flip mode, after a successful prefix (selector,
describe, batch loop), finalize calls `updateECSService` with the original
pre-run desired count and `Run` returns exactly that call's outcome: a
failed restoration is propagated as `Run`'s error, a successful one makes
`Run` succeed.  The source's inverted error test
(src/unnamed/part_001:90-92) only mislabels the log output — it prints
"Success!" precisely when the restoration failed — and does not affect the
returned error. -/
theorem run_flip_restore_C2 (selEnv : SelEnv) (cfg : Config) (s : OS)
    (orig : Int) (s₁ : OS)
    (hflip : cfg.InstanceFlip = true)
    (hprep : RunPrep selEnv cfg s = (.ok orig, s₁)) :
    (∀ e, (updateECSService cfg orig s₁).1 = .error e →
       (Run selEnv cfg s).1 = .error e) ∧
    (∀ d, (updateECSService cfg orig s₁).1 = .ok d →
       (Run selEnv cfg s).1 = .ok ()) := by
  have hrun : Run selEnv cfg s =
      ((updateECSService cfg orig >>= fun _ => pure ()) s₁) := by
    unfold Run
    rw [OrchM.bind_run, hprep]
    dsimp only
    rw [if_pos hflip]
  constructor
  · intro e he
    rw [hrun, OrchM.bind_run]
    rcases hu : updateECSService cfg orig s₁ with ⟨r, s₂⟩
    rw [hu] at he
    cases r with
    | ok d => exact absurd he (by simp)
    | error e' =>
        simp only [Except.error.injEq] at he
        rw [he]
  · intro d hd
    rw [hrun, OrchM.bind_run]
    rcases hu : updateECSService cfg orig s₁ with ⟨r, s₂⟩
    rw [hu] at hd
    cases r with
    | error e' => exact absurd hd (by simp)
    | ok d' => rfl

/-- C2 counterexample: on the flip scenario `envF`/`cfgF`/`s0F` the
restoration call fails and `Run` returns that error — it does NOT report
success, contrary to the claim. -/
theorem run_flip_restore_C2_counterexample :
    (Run envF cfgF s0F).1 = .error (.cpErr "restore failed") ∧
    (Run envF cfgF s0F).1 ≠ .ok () := by
  constructor
  · rfl
  · rw [show (Run envF cfgF s0F).1 = .error (.cpErr "restore failed") from rfl]
    simp

/-- C2 witness (for the amended claim): on the same scenario the
error-propagation branch of the amended theorem applies: `Run` returns the
failed restoration's error. -/
theorem run_flip_restore_C2_witness :
    (Run envF cfgF s0F).1 = .error (.cpErr "restore failed") :=
  (run_flip_restore_C2 envF cfgF s0F 3 s1F rfl rfl).1 (.cpErr "restore failed") rfl

/-- C10: with the selector succeeding and the service describe answering
`orig`, `Run` raises the "no room to decrease" error iff `orig` equals the
configured target exactly; and when `orig` is strictly below the target
(`maxToRemove` negative) the batch loop runs zero iterations — nothing is
drained, terminated, or updated except the finalize step, which in non-flip
mode is exactly `updateASG(DesiredCount, setMax := true)`: one capacity
update carrying the target as MinSize, DesiredCapacity, and MaxSize,
followed by the in-service wait; if those two calls succeed, `Run` returns
no error. -/
theorem run_noroom_C10 (selEnv : SelEnv) (cfg : Config) (cis : List String)
    (orig : Int) (rest : List CPResp) (s : OS)
    (hsel : findDrainableContainerInstances selEnv cfg = .ok cis)
    (hresp : s.resps = CPResp.svcList [orig] :: rest) :
    ((Run selEnv cfg s).1 = .error .noRoom ↔ orig = cfg.DesiredCount) ∧
    (orig < cfg.DesiredCount → cfg.InstanceFlip = false →
       Run selEnv cfg s =
         updateASG cfg cfg.DesiredCount true
           ⟨rest, s.events ++ [CPEvent.describeService]⟩ ∧
       (∀ ev ∈ (Run selEnv cfg s).2.events,
          ev ∈ s.events ∨ ev = CPEvent.describeService ∨
          ev = CPEvent.updateASG cfg.DesiredCount cfg.DesiredCount
            (some cfg.DesiredCount) ∨
          ev = CPEvent.waitGroupInService) ∧
       (∀ rest', rest = CPResp.done :: CPResp.done :: rest' →
          (Run selEnv cfg s).1 = .ok ())) := by
  have hecs : ecsService cfg s =
      (.ok orig, ⟨rest, s.events ++ [CPEvent.describeService]⟩) := by
    unfold ecsService callCP
    simp only [hresp]
  have hprep : RunPrep selEnv cfg s =
      ((if orig - cfg.DesiredCount = 0 then (orchThrow .noRoom : OrchM Int)
        else do
          let _ ← runBatches cfg (orig - cfg.DesiredCount) (cis.length + 1)
            orig cis 0
          pure orig)
       ⟨rest, s.events ++ [CPEvent.describeService]⟩) := by
    unfold RunPrep
    rw [OrchM.bind_run]
    simp only [liftSel, hsel]
    rw [OrchM.bind_run, hecs]
  by_cases heq : orig = cfg.DesiredCount
  · have h0 : orig - cfg.DesiredCount = 0 := by omega
    have hr : Run selEnv cfg s =
        (.error .noRoom, ⟨rest, s.events ++ [CPEvent.describeService]⟩) := by
      unfold Run
      rw [OrchM.bind_run, hprep, if_pos h0]
      rfl
    constructor
    · rw [hr]
      simp [heq]
    · intro hlt
      exact absurd heq (by omega)
  · have h0 : ¬(orig - cfg.DesiredCount = 0) := by omega
    have hrun2 : Run selEnv cfg s =
        (((do
            let _ ← runBatches cfg (orig - cfg.DesiredCount) (cis.length + 1)
              orig cis 0
            pure orig : OrchM Int) >>= fun orig' =>
          (if cfg.InstanceFlip then do
              let _ ← updateECSService cfg orig'
              pure ()
            else updateASG cfg cfg.DesiredCount true))
         ⟨rest, s.events ++ [CPEvent.describeService]⟩) := by
      unfold Run
      rw [OrchM.bind_run, hprep, if_neg h0]
      rfl
    constructor
    · constructor
      · intro habs
        have hnn : NoNoRoom
            (((do
                let _ ← runBatches cfg (orig - cfg.DesiredCount)
                  (cis.length + 1) orig cis 0
                pure orig : OrchM Int) >>= fun orig' =>
              (if cfg.InstanceFlip then do
                  let _ ← updateECSService cfg orig'
                  pure ()
                else updateASG cfg cfg.DesiredCount true))) := by
          refine noNoRoom_bind ?_ ?_
          · exact noNoRoom_bind (noNoRoom_runBatches cfg _ _ _ _ _)
              (fun _ => noNoRoom_pure _)
          intro orig'
          refine noNoRoom_ite _ ?_ (noNoRoom_updateASG cfg _ _)
          exact noNoRoom_bind (noNoRoom_updateECSService cfg _)
            (fun _ => noNoRoom_pure _)
        rw [hrun2] at habs
        exact absurd habs (hnn _)
      · intro h
        exact absurd h heq
    · intro hlt hflip
      have hbat : runBatches cfg (orig - cfg.DesiredCount) (cis.length + 1)
          orig cis 0 ⟨rest, s.events ++ [CPEvent.describeService]⟩ =
          (.ok orig, ⟨rest, s.events ++ [CPEvent.describeService]⟩) := by
        unfold runBatches
        rw [if_neg (by
          intro hcon
          have := hcon.2
          omega)]
        rfl
      have hX : ((do
          let _ ← runBatches cfg (orig - cfg.DesiredCount) (cis.length + 1)
            orig cis 0
          pure orig : OrchM Int)
          ⟨rest, s.events ++ [CPEvent.describeService]⟩) =
          (.ok orig, ⟨rest, s.events ++ [CPEvent.describeService]⟩) := by
        rw [OrchM.bind_run, hbat]
        rfl
      have hfin : Run selEnv cfg s =
          updateASG cfg cfg.DesiredCount true
            ⟨rest, s.events ++ [CPEvent.describeService]⟩ := by
        rw [hrun2, OrchM.bind_run, hX]
        dsimp only
        rw [if_neg (by simp [hflip])]
      refine ⟨hfin, ?_, ?_⟩
      · intro ev hmem
        rw [hfin] at hmem
        rcases emitsOnly_updateASG cfg cfg.DesiredCount true
          ⟨rest, s.events ++ [CPEvent.describeService]⟩ ev hmem with h | h
        · rcases List.mem_append.mp h with h' | h'
          · exact Or.inl h'
          · exact Or.inr (Or.inl (List.mem_singleton.mp h'))
        · rcases h with h | h
          · refine Or.inr (Or.inr (Or.inl ?_))
            rw [h]
            simp
          · exact Or.inr (Or.inr (Or.inr h))
      · intro rest' hrr
        rw [hfin, hrr]
        rfl

/-- C10 witness: service already at desired 0 with target 1
(`maxToRemove = -1`): no "no room" error, zero batches, and the run reduces
to the final min/max/desired update of the instance group. -/
theorem run_noroom_C10_witness :
    ((Run envF cfgA s0G).1 = .error .noRoom ↔ (0 : Int) = cfgA.DesiredCount) ∧
    Run envF cfgA s0G =
      updateASG cfgA cfgA.DesiredCount true
        ⟨[CPResp.done, CPResp.done], [CPEvent.describeService]⟩ :=
  ⟨(run_noroom_C10 envF cfgA ["i-a", "i-b"] 0 [CPResp.done, CPResp.done] s0G
      rfl rfl).1,
   ((run_noroom_C10 envF cfgA ["i-a", "i-b"] 0 [CPResp.done, CPResp.done] s0G
      rfl rfl).2 (by decide) rfl).1⟩
